import Mathlib

/-!
Verification of the pomodoro-youtube-player core (src/src/App.tsx).

The React component keeps its state in `useState` hooks and `useRef` cells;
we embed that state as the structure `AppState` and each handler / effect as
a pure function on it.  All wall-clock values (`Date.now()`, the
`startTimeRef`/`endTimeRef` anchors) are embedded as `Int` milliseconds;
JavaScript numbers behave as exact integers on all the arithmetic the
component performs.
-/

namespace Pomodoro

/-- The component state relevant to the timer core (src/src/App.tsx).
`workMinutes`, `breakMinutes`, `totalPomodoros` are the three numeric
settings (lines 55-57); `currentPomodoro` (line 58) is the 0-based cycle
index; `isRunning`/`isWorking`/`timeLeft`/`timerComplete` are the timer
state hooks (lines 71-74); `startTime`/`endTime` embed `startTimeRef`/
`endTimeRef` (lines 78-79); `intervalActive` embeds whether
`intervalRef.current` is non-null (line 75), i.e. whether the 1 Hz
interval of the timer effect is currently scheduled. -/
structure AppState where
  workMinutes : Int
  breakMinutes : Int
  totalPomodoros : Int
  currentPomodoro : Int
  isRunning : Bool
  isWorking : Bool
  timeLeft : Int
  timerComplete : Bool
  startTime : Int
  endTime : Int
  intervalActive : Bool
deriving DecidableEq, Repr

/-- The initial hook values (lines 55-79): 25/5 minutes, 4 pomodoros,
idle on the first work period, `timeLeft = workMinutes * 60`. -/
def initialState : AppState :=
  { workMinutes := 25
    breakMinutes := 5
    totalPomodoros := 4
    currentPomodoro := 0
    isRunning := false
    isWorking := true
    timeLeft := 25 * 60
    timerComplete := false
    startTime := 0
    endTime := 0
    intervalActive := false }

/-- The interval callback of the timer effect (lines 320-346).  Computes
`remainingMs = endTimeRef.current - now`; when it has reached 0 it clears
the interval, sets `timeLeft` to 0 and performs the phase transition
(Work: increment `currentPomodoro`, complete when the incremented value
reaches `totalPomodoros`, otherwise switch to Break; Break: switch back
to Work).  Otherwise it recomputes `timeLeft = Math.ceil(remainingMs/1000)`
from the absolute anchor; for `remainingMs > 0` that ceiling equals
`(remainingMs + 999) / 1000`. -/
def intervalTick (now : Int) (s : AppState) : AppState :=
  let remainingMs := s.endTime - now
  if remainingMs ≤ 0 then
    let s := { s with intervalActive := false, timeLeft := 0 }
    if s.isWorking then
      let nextPomodoro := s.currentPomodoro + 1
      if nextPomodoro ≥ s.totalPomodoros then
        { s with timerComplete := true, isRunning := false }
      else
        { s with isWorking := false, currentPomodoro := nextPomodoro,
                 timeLeft := s.breakMinutes * 60 }
    else
      { s with isWorking := true, timeLeft := s.workMinutes * 60 }
  else
    { s with timeLeft := (remainingMs + 999) / 1000 }

/-- The timer effect body together with its cleanup (lines 312-353).
After every state change React re-runs this effect: while
`isRunning && !timerComplete` it (re)schedules the interval, anchoring
`startTimeRef`/`endTimeRef` at `now` only when no interval is scheduled
(`!intervalRef.current`, lines 315-318); otherwise the cleanup leaves the
interval cancelled. -/
def timerEffect (now : Int) (s : AppState) : AppState :=
  if s.isRunning ∧ ¬s.timerComplete then
    if ¬s.intervalActive then
      { s with startTime := now, endTime := now + s.timeLeft * 1000,
               intervalActive := true }
    else s
  else
    { s with intervalActive := false }

/-- One fired interval tick followed by the re-run of the timer effect
(the effect re-runs because the tick changed its dependencies, and
re-anchors the next period when the tick cleared the interval). -/
def tickStep (now : Int) (s : AppState) : AppState :=
  timerEffect now (intervalTick now s)

/-- `toggleTimer` (lines 381-389): when the session is complete it first
resets to the initial work period, then flips `isRunning`. -/
def toggleTimer (s : AppState) : AppState :=
  let s' :=
    if s.timerComplete then
      { s with isWorking := true, currentPomodoro := 0,
               timeLeft := s.workMinutes * 60, timerComplete := false }
    else s
  { s' with isRunning := !s.isRunning }

/-- `resetTimer` (lines 392-398). -/
def resetTimer (s : AppState) : AppState :=
  { s with isRunning := false, isWorking := true, currentPomodoro := 0,
           timeLeft := s.workMinutes * 60, timerComplete := false }

/-- `skipSession` (lines 401-432): no-op when `timerComplete`; otherwise
clears the interval and performs the same phase transition as natural
expiry, re-anchoring `startTimeRef`/`endTimeRef` at `now` for the new
period in the non-completing branches. -/
def skipSession (now : Int) (s : AppState) : AppState :=
  if s.timerComplete then s
  else
    let s := { s with intervalActive := false }
    if s.isWorking then
      let nextPomodoro := s.currentPomodoro + 1
      if nextPomodoro ≥ s.totalPomodoros then
        { s with timerComplete := true, isRunning := false }
      else
        { s with isWorking := false, currentPomodoro := nextPomodoro,
                 timeLeft := s.breakMinutes * 60,
                 startTime := now, endTime := now + s.breakMinutes * 60 * 1000 }
    else
      { s with isWorking := true, timeLeft := s.workMinutes * 60,
               startTime := now, endTime := now + s.workMinutes * 60 * 1000 }

/-- The "start the clock" path: the external-play branch of `onStateChange`
(lines 279-281) calls `setIsRunning(true)` only when `!isRunningRef.current`;
the subsequent run of the timer effect anchors the period (lines 312-318).
When the clock is already running the guard fires, no state hook changes,
and the timer effect does not re-run (none of its dependencies changed). -/
def startClock (now : Int) (s : AppState) : AppState :=
  if s.isRunning then s
  else timerEffect now { s with isRunning := true }

/-! ## Playback synchronization (the YouTube player bridge) -/

/-- A command issued to the playback capability (`playVideo`/`pauseVideo`). -/
inductive PlayerCmd where
  | play
  | pause
deriving DecidableEq, Repr

/-- The mapped `event.data` codes of the YouTube `onStateChange` callback the
component reacts to: 0 = ended, 1 = playing, 2 = paused (lines 270-288). -/
inductive YTEventKind where
  | ended
  | played
  | paused
deriving DecidableEq, Repr

/-- The body of the player `onStateChange` callback (lines 270-288), with
`armed` the value of `programmaticChangeRef.current` and `isRunningRef`
the value of `isRunningRef.current` at the instant the event is handled.
Returns the commands issued to the player together with the
`setIsRunning` update, if any: ended always re-issues `play()` (the loop,
lines 271-274, before and independent of the guard check); played/paused
drive the clock only when the guard is not armed (lines 277-287). -/
def onStateChangeCore (armed : Bool) (kind : YTEventKind) (isRunningRef : Bool) :
    List PlayerCmd × Option Bool :=
  let loopCmds : List PlayerCmd := if kind = .ended then [.play] else []
  let upd : Option Bool :=
    if armed then none
    else if kind = .played ∧ isRunningRef = false then some true
    else if kind = .paused ∧ isRunningRef = true then some false
    else none
  (loopCmds, upd)

/-- The echo-suppression guard: `programmaticChangeRef` (line 67) is set to
`true` by the playback-control effect and reset to `false` by a 100 ms
`setTimeout` (lines 298-307).  We embed the flag-plus-timeout as the
absolute instant `armedUntil` at which the pending timeout fires: the
flag reads `true` exactly while `now < armedUntil`. -/
structure SyncGuard where
  armedUntil : Int
deriving DecidableEq, Repr

/-- Whether `programmaticChangeRef.current` reads `true` at time `now`. -/
def SyncGuard.armed (g : SyncGuard) (now : Int) : Bool :=
  now < g.armedUntil

/-- The playback-control effect (lines 296-309), which runs whenever the
`(isWorking, isRunning)` pair changes: arms the guard for 100 ms and
issues `play()` when `isWorking && isRunning`, otherwise `pause()`. -/
def onClockPhaseChanged (now : Int) (isWorking isRunning : Bool) (_g : SyncGuard) :
    SyncGuard × PlayerCmd :=
  (⟨now + 100⟩, if isWorking && isRunning then .play else .pause)

/-- A player state-change event arriving at time `now`, dispatched through
the guard (the `onStateChange` callback, lines 270-288). -/
def onExternalPlaybackEvent (now : Int) (kind : YTEventKind) (g : SyncGuard)
    (isRunningRef : Bool) : List PlayerCmd × Option Bool :=
  onStateChangeCore (g.armed now) kind isRunningRef

/-- Applying a player state-change event to the component state:
`isRunningRef` mirrors `isRunning` (effect at lines 221-223), and the
`setIsRunning` update, when present, is applied. -/
def applyStateChange (armed : Bool) (kind : YTEventKind) (s : AppState) :
    List PlayerCmd × AppState :=
  let (cmds, upd) := onStateChangeCore armed kind s.isRunning
  (cmds, match upd with
         | none => s
         | some b => { s with isRunning := b })

/-! ## The event loop: every user action / timer firing / player event,
followed by the re-run of the React effects -/

/-- Combined component state: the hook state plus the echo guard. -/
structure SysState where
  app : AppState
  guard : SyncGuard
deriving DecidableEq, Repr

/-- After a handler changed the hook state, React re-renders and re-runs
the effects: the playback-control effect (lines 296-309) re-arms the
guard when its dependencies `(isWorking, isRunning)` changed, and the
timer effect (lines 312-353) (re)schedules or cancels the interval. -/
def postRender (now : Int) (prev : AppState) (a : AppState) (g : SyncGuard) : SysState :=
  let a' := timerEffect now a
  let g' :=
    if (a.isWorking, a.isRunning) ≠ (prev.isWorking, prev.isRunning) then
      (onClockPhaseChanged now a.isWorking a.isRunning g).1
    else g
  ⟨a', g'⟩

/-- The external stimuli of claim C5: the Start/Pause button (`toggleTimer`),
Reset, Skip, a firing of the scheduled interval, and a player
state-change event, each stamped with the wall-clock instant at which it
is handled. -/
inductive Op where
  | toggle (now : Int)
  | reset (now : Int)
  | skip (now : Int)
  | tickFire (now : Int)
  | ytEvent (kind : YTEventKind) (now : Int)
deriving DecidableEq, Repr

/-- Dispatch one stimulus: run its handler on the hook state, then the
effects.  The interval callback can only fire while the interval is
actually scheduled (`intervalRef.current` non-null). -/
def applyOp (op : Op) (s : SysState) : SysState :=
  match op with
  | .toggle now => postRender now s.app (toggleTimer s.app) s.guard
  | .reset now => postRender now s.app (resetTimer s.app) s.guard
  | .skip now => postRender now s.app (skipSession now s.app) s.guard
  | .tickFire now =>
      if s.app.intervalActive then
        postRender now s.app (intervalTick now s.app) s.guard
      else s
  | .ytEvent kind now =>
      postRender now s.app (applyStateChange (s.guard.armed now) kind s.app).2 s.guard

/-- Run a sequence of stimuli. -/
def runOps (ops : List Op) (s : SysState) : SysState :=
  ops.foldl (fun s op => applyOp op s) s

/-- The idle boot state for a configuration `(w, b, t)`:
minutes/pomodoro-count settings as supplied, first work period pending,
guard never armed. -/
def mkInit (w b t : Int) : SysState :=
  ⟨{ workMinutes := w
     breakMinutes := b
     totalPomodoros := t
     currentPomodoro := 0
     isRunning := false
     isWorking := true
     timeLeft := w * 60
     timerComplete := false
     startTime := 0
     endTime := 0
     intervalActive := false },
   ⟨0⟩⟩

/-! ## Configuration inputs (C7) -/

/-- The `onChange` handler of the Work Minutes number input
(lines 771-776): stores `parseInt(e.target.value, 10)` unmodified and,
when the timer is neither running nor on a break, updates the displayed
`timeLeft` to the new duration. -/
def workMinutesOnChange (v : Int) (s : AppState) : AppState :=
  let s := { s with workMinutes := v }
  if ¬s.isRunning ∧ s.isWorking then { s with timeLeft := v * 60 } else s

/-- The `onChange` handler of the Break Minutes input (lines 790-795). -/
def breakMinutesOnChange (v : Int) (s : AppState) : AppState :=
  let s := { s with breakMinutes := v }
  if ¬s.isRunning ∧ ¬s.isWorking then { s with timeLeft := v * 60 } else s

/-- The `onChange` handler of the Number of Pomodoros input
(lines 809-811): stores the parsed value unmodified. -/
def totalPomodorosOnChange (v : Int) (s : AppState) : AppState :=
  { s with totalPomodoros := v }

/-- `setPreset` (lines 461-473): stores both durations, and when not
running updates the displayed `timeLeft` for the current phase. -/
def setPreset (workMins breakMins : Int) (s : AppState) : AppState :=
  let s := { s with workMinutes := workMins, breakMinutes := breakMins }
  if ¬s.isRunning then
    { s with timeLeft := if s.isWorking then workMins * 60 else breakMins * 60 }
  else s

/-- The Work Minutes input carries `disabled={isRunning}` (line 778), so
its `onChange` can only fire while the timer is not running. -/
def workMinutesInput (v : Int) (s : AppState) : AppState :=
  if s.isRunning then s else workMinutesOnChange v s

/-- The Break Minutes input, `disabled={isRunning}` (line 797). -/
def breakMinutesInput (v : Int) (s : AppState) : AppState :=
  if s.isRunning then s else breakMinutesOnChange v s

/-- The Number of Pomodoros input, `disabled={isRunning}` (line 813). -/
def totalPomodorosInput (v : Int) (s : AppState) : AppState :=
  if s.isRunning then s else totalPomodorosOnChange v s

/-- A preset button, `disabled={isRunning}` (lines 825, 832, 839). -/
def presetButton (workMins breakMins : Int) (s : AppState) : AppState :=
  if s.isRunning then s else setPreset workMins breakMins s

/-! ## Video history (C10) -/

/-- A `VideoHistoryItem` (lines 19-25).  `title`/`thumbnail` hold whatever
`fetchVideoData` returned; they are opaque payload for the history
invariants. -/
structure VideoHistoryItem where
  id : String
  url : String
  title : String
  thumbnail : String
  addedAt : Int
deriving DecidableEq, Repr

/-- `addToHistory` (lines 136-160): if an item with the same id exists,
splice it out, refresh its `addedAt` and unshift it to the front;
otherwise unshift a freshly fetched item onto the first 19 retained
entries (`prev.slice(0, 19)`).  `title`/`thumbnail` stand for the data
`fetchVideoData` resolved with. -/
def addToHistory (id url title thumbnail : String) (now : Int)
    (history : List VideoHistoryItem) : List VideoHistoryItem :=
  match history.findIdx? (fun item => item.id = id) with
  | some i =>
      match history[i]? with
      | some existingItem =>
          { existingItem with addedAt := now } :: history.eraseIdx i
      | none => history
  | none =>
      { id := id, url := url, title := title, thumbnail := thumbnail,
        addedAt := now } :: history.take 19

/-- `removeFromHistory` (lines 163-165). -/
def removeFromHistory (id : String) (history : List VideoHistoryItem) :
    List VideoHistoryItem :=
  history.filter (fun item => item.id ≠ id)

/-- `clearHistory` (lines 168-170). -/
def clearHistory (_history : List VideoHistoryItem) : List VideoHistoryItem :=
  []

/-- The history effect of `loadFromHistory` (lines 173-178): it re-adds the
clicked item, so on the list it acts exactly as `addToHistory` with the
item's id and url (the freshly fetched title/thumbnail are the payload
of the new entry if the id had meanwhile disappeared). -/
def loadFromHistory (item : VideoHistoryItem) (title thumbnail : String)
    (now : Int) (history : List VideoHistoryItem) : List VideoHistoryItem :=
  addToHistory item.id item.url title thumbnail now history

/-- A history mutation, for the reachability statement of C10. -/
inductive HistOp where
  | add (id url title thumbnail : String) (now : Int)
  | remove (id : String)
  | clear
  | load (item : VideoHistoryItem) (title thumbnail : String) (now : Int)

/-- Apply one history mutation. -/
def applyHistOp (op : HistOp) (history : List VideoHistoryItem) :
    List VideoHistoryItem :=
  match op with
  | .add id url title thumbnail now => addToHistory id url title thumbnail now history
  | .remove id => removeFromHistory id history
  | .clear => clearHistory history
  | .load item title thumbnail now => loadFromHistory item title thumbnail now history

/-- Run a sequence of history mutations from the empty list. -/
def runHistOps (ops : List HistOp) : List VideoHistoryItem :=
  ops.foldl (fun h op => applyHistOp op h) []

/-! ## Media-identifier extraction (C9)

`extractVideoId` (lines 181-186) matches the pasted URL against

  `^.*((youtu.be\/)|(v\/)|(\/u\/\w\/)|(embed\/)|(watch\?))\??v?=?([^#&?]*).*`

and returns capture group 7 when it is exactly 11 characters long,
otherwise `null`.  We embed the regex directly: the anchored greedy `.*`
backtracks to the rightmost position at which one of the five marker
alternatives matches (everything after the alternation is optional or
star-quantified, so the rightmost marker occurrence wins); after the
marker, `\??v?=?` greedily consumes at most one `?`, one `v` and one `=`;
group 7 is the longest following run of characters outside `#&?`.  URLs
are embedded as `List Char`. -/

/-- JavaScript `\w`: ASCII letters, digits and underscore. -/
def isWordChar (c : Char) : Bool :=
  (('a' ≤ c ∧ c ≤ 'z') ∨ ('A' ≤ c ∧ c ≤ 'Z') ∨ ('0' ≤ c ∧ c ≤ '9') ∨ c = '_')

/-- Try the five marker alternatives of the regex at the head of `l`, in
the regex's alternation order, returning the suffix after the marker.
The `.` in `youtu.be\/` is the regex wildcard.  The five alternatives
begin with pairwise distinct literal characters, so at most one can
match at a given position. -/
def markerRest : List Char → Option (List Char)
  | 'y' :: 'o' :: 'u' :: 't' :: 'u' :: _ :: 'b' :: 'e' :: '/' :: rest => some rest
  | 'v' :: '/' :: rest => some rest
  | '/' :: 'u' :: '/' :: c :: '/' :: rest =>
      if isWordChar c then some rest else none
  | 'e' :: 'm' :: 'b' :: 'e' :: 'd' :: '/' :: rest => some rest
  | 'w' :: 'a' :: 't' :: 'c' :: 'h' :: '?' :: rest => some rest
  | _ => none

/-- The greedy `^.*` prefix: the regex engine commits to the rightmost
position at which a marker alternative matches.  Returns the suffix
following that rightmost marker. -/
def findLastMarker : List Char → Option (List Char)
  | [] => none
  | c :: rest =>
      match findLastMarker rest with
      | some r => some r
      | none => markerRest (c :: rest)

/-- The `\??v?=?` part: greedily consume at most one `?`, then one `v`,
then one `=`. -/
def afterMarker (l : List Char) : List Char :=
  let l := match l with
           | '?' :: r => r
           | _ => l
  let l := match l with
           | 'v' :: r => r
           | _ => l
  match l with
  | '=' :: r => r
  | _ => l

/-- Capture group 7, `([^#&?]*)`: the longest run of characters other than
`#`, `&`, `?`. -/
def captureGroup7 (l : List Char) : List Char :=
  l.takeWhile (fun c => c ≠ '#' ∧ c ≠ '&' ∧ c ≠ '?')

/-- `extractVideoId` (lines 181-186): the matched group 7 when the regex
matches and the group is exactly 11 characters long, otherwise `null`. -/
def extractVideoId (url : List Char) : Option (List Char) :=
  match findLastMarker url with
  | none => none
  | some rest =>
      let g7 := captureGroup7 (afterMarker rest)
      if g7.length = 11 then some g7 else none

/-- The pieces of component state `handleUrlSubmit` can touch, plus the
timer state it must leave alone. -/
structure UrlState where
  app : AppState
  videoUrl : List Char
  videoId : List Char
  history : List VideoHistoryItem
deriving DecidableEq, Repr

/-- `handleUrlSubmit` (lines 370-378): on a successful extraction it loads
the id and records it in the history (with the data `fetchVideoData`
resolved with); on rejection it only raises an alert and changes no
state. -/
def handleUrlSubmit (title thumbnail : String) (now : Int) (s : UrlState) : UrlState :=
  match extractVideoId s.videoUrl with
  | some id =>
      { s with videoId := id,
               history := addToHistory (String.mk id) (String.mk s.videoUrl)
                 title thumbnail now s.history }
  | none => s

/-! ## Invariant predicates and scenario states used by the claims -/

/-- Whether a stimulus is an external Played event (the one operation that
can restart the clock from outside). -/
def Op.isPlayed : Op → Bool
  | .ytEvent .played _ => true
  | _ => false

/-- The cycle-counter part of the state invariant: at least one pomodoro
configured, the 0-based index in range, and on completion the index has
stopped at the last cycle. -/
def AInv (a : AppState) : Prop :=
  1 ≤ a.totalPomodoros ∧ a.currentPomodoro < a.totalPomodoros ∧
    (a.timerComplete = true → a.currentPomodoro + 1 = a.totalPomodoros)

/-- The interval is only ever scheduled while the clock is running and the
session is not complete (the timer effect guarantees this after every
render). -/
def IntervalInv (a : AppState) : Prop :=
  a.intervalActive = true → a.isRunning = true ∧ a.timerComplete = false

/-- Completion implies stopped. -/
def CompInv (a : AppState) : Prop :=
  a.timerComplete = true → a.isRunning = false

/-- The inductive system invariant carried through every stimulus. -/
def SysInv (s : SysState) : Prop :=
  AInv s.app ∧ IntervalInv s.app

/-- The history invariant of C10: bounded by 20 entries with pairwise
distinct video ids. -/
def HistInv (h : List VideoHistoryItem) : Prop :=
  h.length ≤ 20 ∧ (h.map VideoHistoryItem.id).Nodup

/-- C1 scenario: default 25/5/4 configuration, Start pressed at t = 0.
The timer effect anchors the first work period at [0, 1500000). -/
def c1Start : AppState :=
  timerEffect 0 (toggleTimer initialState)

/-- The successive natural phase boundaries of the C1 scenario: four
25-minute work periods interleaved with three 5-minute breaks. -/
def c1Boundaries : List Int :=
  [1500000, 1800000, 3300000, 3600000, 5100000, 5400000, 6900000]

/-- The C1 state after the first `n` phase boundaries have expired. -/
def c1After (n : Nat) : AppState :=
  (c1Boundaries.take n).foldl (fun s t => tickStep t s) c1Start

/-- C3 scenario: a paused single-cycle session with 10 seconds left in the
work period (`workSeconds = 10` of the spec scenario). -/
def c3Paused : AppState :=
  { initialState with totalPomodoros := 1, timeLeft := 10 }

/-- C3 scenario: the clock started at t = 0, anchoring the period end at
10000 ms. -/
def c3Started : AppState :=
  startClock 0 c3Paused

/-- C5 scenario: a full run of the default 25/5/4 session driven to
completion by Skip presses. -/
def c5Ops : List Op :=
  [.toggle 0, .skip 10, .skip 20, .skip 30, .skip 40, .skip 50, .skip 60,
   .skip 70]

/-- C9 scenario: the component with a malformed URL in the input box. -/
def c9RejectState : UrlState :=
  { app := initialState
    videoUrl := "not a url".data
    videoId := []
    history := [] }

/-! # Theorems for the claims -/

/-- C1 (counterexample): in the `work=25*60, break=5*60, cycles=4`
scenario, the tick at exactly `workSeconds` elapsed does switch to the
break with 300 seconds remaining, but the cycle index it leaves behind is
1, not 0 as the claim states: `currentPomodoro` is incremented when
leaving Work, so during the first break it already reads 1. -/
theorem c1_first_boundary_counterexample :
    (tickStep 1500000 c1Start).isWorking = false ∧
    (tickStep 1500000 c1Start).timeLeft = 300 ∧
    (tickStep 1500000 c1Start).currentPomodoro = 1 ∧
    ¬(tickStep 1500000 c1Start).currentPomodoro = 0 := by
  decide

/-- C1 (amended): with work=25*60, break=5*60, cycles=4, after start() the
tick at exactly `workSeconds` elapsed yields phase=Break,
remainingSeconds=300 and cycleIndex=1 (the index is incremented when
leaving Work); after the first six natural boundaries the session is in
its 4th (final) work period with cycleIndex=3 and not complete, and the
natural expiry of that final work period reaches phase=Complete with the
clock stopped, cycleIndex=3 and 0 seconds remaining — the final break
never occurs, because completion is detected when the incremented index
equals totalCycles. -/
theorem c1_completion_boundary :
    (tickStep 1500000 c1Start).isWorking = false ∧
    (tickStep 1500000 c1Start).currentPomodoro = 1 ∧
    (tickStep 1500000 c1Start).timeLeft = 300 ∧
    (tickStep 1500000 c1Start).timerComplete = false ∧
    (c1After 6).isWorking = true ∧
    (c1After 6).currentPomodoro = 3 ∧
    (c1After 6).timerComplete = false ∧
    (c1After 6).isRunning = true ∧
    (c1After 7).timerComplete = true ∧
    (c1After 7).isRunning = false ∧
    (c1After 7).currentPomodoro = 3 ∧
    (c1After 7).timeLeft = 0 := by
  decide

/-- C2: when the clock transitions to (Work, running) the synchronizer
issues `play()` and arms the guard for 100 ms; a Played event delivered
while the guard is unexpired is consumed without starting the clock, and
a Played event delivered after the guard window, with the clock not
running, does start the clock. -/
theorem c2_echo_suppression (t tp : Int) (g : SyncGuard) (isRunningRef : Bool) :
    (onClockPhaseChanged t true true g).2 = PlayerCmd.play ∧
    (tp < t + 100 →
      (onExternalPlaybackEvent tp .played (onClockPhaseChanged t true true g).1
        isRunningRef).2 = none) ∧
    (t + 100 ≤ tp →
      (onExternalPlaybackEvent tp .played (onClockPhaseChanged t true true g).1
        false).2 = some true) := by
  refine ⟨rfl, fun h => ?_, fun h => ?_⟩
  · have ha : ((onClockPhaseChanged t true true g).1).armed tp = true := by
      simp only [onClockPhaseChanged, SyncGuard.armed, decide_eq_true_eq]
      omega
    unfold onExternalPlaybackEvent
    rw [ha]
    rfl
  · have ha : ((onClockPhaseChanged t true true g).1).armed tp = false := by
      simp only [onClockPhaseChanged, SyncGuard.armed, decide_eq_false_iff_not]
      omega
    unfold onExternalPlaybackEvent
    rw [ha]
    rfl

/-- C2 witness: the guard armed at t = 0; an echo Played at t = 50 is
ignored, a genuine Played at t = 500 starts the clock. -/
theorem c2_echo_suppression_witness :
    (onClockPhaseChanged 0 true true ⟨-50⟩).2 = PlayerCmd.play ∧
    (onExternalPlaybackEvent 50 .played (onClockPhaseChanged 0 true true ⟨-50⟩).1
      false).2 = none ∧
    (onExternalPlaybackEvent 500 .played (onClockPhaseChanged 0 true true ⟨-50⟩).1
      false).2 = some true :=
  ⟨(c2_echo_suppression 0 50 ⟨-50⟩ false).1,
   (c2_echo_suppression 0 50 ⟨-50⟩ false).2.1 (by decide),
   (c2_echo_suppression 0 500 ⟨-50⟩ false).2.2 (by decide)⟩

/-- C3 (counterexample): with a 10-second work period started at t = 0
(period end anchored at 10000 ms), a single tick at t = 1000 — the
claim's stated input — leaves 9 seconds remaining with the phase still
Work: 1000 ms is within the period, so neither `remainingSeconds == 0`
nor any phase advance happens there. -/
theorem c3_drift_counterexample :
    (tickStep 1000 c3Started).timeLeft = 9 ∧
    (tickStep 1000 c3Started).isWorking = true ∧
    (tickStep 1000 c3Started).timerComplete = false := by
  decide

/-- C3 (amended): with a 10-second single-cycle work period started at
t = 0, a single tick at any t ≥ 10000 ms (a single resumed tick after
being backgrounded far beyond the period) yields remainingSeconds = 0
and advances the phase past Work exactly once, to Complete — the
remaining time is recomputed from the absolute `endTimeRef` anchor, so
one late tick settles the period in one step instead of one step per
missed tick. -/
theorem c3_drift_resistance (now : Int) (h : 10000 ≤ now) :
    tickStep now c3Started =
      { c3Started with timeLeft := 0, timerComplete := true,
                       isRunning := false, intervalActive := false } := by
  have hend : c3Started.endTime = 10000 := by decide
  have hrem : c3Started.endTime - now ≤ 0 := by omega
  have h1 : intervalTick now c3Started =
      { c3Started with intervalActive := false, timeLeft := 0,
                       timerComplete := true, isRunning := false } := by
    simp only [intervalTick]
    rw [if_pos hrem]
    decide
  have h2 : timerEffect now
      ({ c3Started with intervalActive := false, timeLeft := 0,
                        timerComplete := true, isRunning := false } : AppState) =
      { c3Started with intervalActive := false, timeLeft := 0,
                       timerComplete := true, isRunning := false } := by
    simp only [timerEffect]
    rw [if_neg (by decide)]
  show timerEffect now (intervalTick now c3Started) = _
  rw [h1, h2]

/-- C3 witness: the amended theorem at the concrete resumed tick
t = 100000. -/
theorem c3_drift_resistance_witness :
    tickStep 100000 c3Started =
      { c3Started with timeLeft := 0, timerComplete := true,
                       isRunning := false, intervalActive := false } :=
  c3_drift_resistance 100000 (by decide)

/-- C4: an Ended event always re-issues `play()` and never touches the
clock, for every component state `s` (in particular on a break, with the
clock stopped) and whether or not the guard is armed; likewise through
the time-stamped guard dispatch. -/
theorem c4_ended_always_loops (armed : Bool) (s : AppState) (now : Int)
    (g : SyncGuard) (isRunningRef : Bool) :
    (applyStateChange armed .ended s).1 = [PlayerCmd.play] ∧
    (applyStateChange armed .ended s).2 = s ∧
    (onExternalPlaybackEvent now .ended g isRunningRef).1 = [PlayerCmd.play] ∧
    (onExternalPlaybackEvent now .ended g isRunningRef).2 = none := by
  cases armed <;>
    cases hg : g.armed now <;>
      simp [applyStateChange, onStateChangeCore, onExternalPlaybackEvent, hg]

/-- C8: starting the clock is idempotent — a second start with no
intervening pause or expiry leaves the whole state, in particular the
`startTimeRef`/`endTimeRef` anchors, unchanged; and when the clock is
already running (interval scheduled) the timer effect re-anchors
nothing. -/
theorem c8_start_idempotent (n1 n2 now : Int) (s a : AppState) :
    startClock n2 (startClock n1 s) = startClock n1 s ∧
    (a.isRunning = true → a.timerComplete = false → a.intervalActive = true →
      timerEffect now a = a) := by
  constructor
  · have hrun : ∀ (n : Int) (x : AppState), (timerEffect n x).isRunning = x.isRunning := by
      intro n x
      simp only [timerEffect]
      split
      · split <;> rfl
      · rfl
    by_cases hr : s.isRunning
    · simp [startClock, hr]
    · simp only [startClock, hr, if_false]
      have : (timerEffect n1 { s with isRunning := true }).isRunning = true := by
        rw [hrun]
      simp [this]
  · intro h1 h2 h3
    simp [timerEffect, h1, h2, h3]

/-- C8 witness: starting the just-started default session again at a later
instant changes nothing, and the timer effect is inert on a running
anchored state. -/
theorem c8_start_idempotent_witness :
    startClock 7000 (startClock 0 initialState) = startClock 0 initialState ∧
    timerEffect 7000 (startClock 0 initialState) = startClock 0 initialState := by
  refine ⟨(c8_start_idempotent 0 7000 7000 initialState (startClock 0 initialState)).1, ?_⟩
  exact (c8_start_idempotent 0 7000 7000 initialState (startClock 0 initialState)).2
    (by decide) (by decide) (by decide)

/-- C6: `skipSession` is a no-op when the session is complete; otherwise it
performs exactly the phase/cycle/completion/running transition that the
natural expiry tick (a tick at the anchored period end) performs, it
re-anchors `startTimeRef`/`endTimeRef` to `now` for the new period
whenever the skip did not complete the session, and on completion it
stops the clock. -/
theorem c6_skip_matches_expiry (now : Int) (s : AppState) :
    (s.timerComplete = true → skipSession now s = s) ∧
    (s.timerComplete = false →
      (skipSession now s).isWorking = (intervalTick s.endTime s).isWorking ∧
      (skipSession now s).currentPomodoro = (intervalTick s.endTime s).currentPomodoro ∧
      (skipSession now s).timerComplete = (intervalTick s.endTime s).timerComplete ∧
      (skipSession now s).isRunning = (intervalTick s.endTime s).isRunning ∧
      ((skipSession now s).timerComplete = false →
        (skipSession now s).timeLeft = (intervalTick s.endTime s).timeLeft ∧
        (skipSession now s).startTime = now ∧
        (skipSession now s).endTime = now + (skipSession now s).timeLeft * 1000) ∧
      ((skipSession now s).timerComplete = true →
        (skipSession now s).isRunning = false)) := by
  constructor
  · intro hc
    simp [skipSession, hc]
  · intro hc
    cases hw : s.isWorking
    · simp [skipSession, intervalTick, hc, hw]
    · by_cases hge : s.currentPomodoro + 1 ≥ s.totalPomodoros
      · simp [skipSession, intervalTick, hc, hw, hge]
      · simp [skipSession, intervalTick, hc, hw, hge]

/-- C6 witness: skip on a fresh (incomplete) default session matches the
natural first-boundary transition; skip on a completed session is a
no-op. -/
theorem c6_skip_matches_expiry_witness :
    skipSession 5 { initialState with timerComplete := true } =
      { initialState with timerComplete := true } ∧
    (skipSession 5 initialState).currentPomodoro =
      (intervalTick initialState.endTime initialState).currentPomodoro ∧
    (skipSession 5 initialState).startTime = 5 :=
  ⟨(c6_skip_matches_expiry 5 { initialState with timerComplete := true }).1 rfl,
   ((c6_skip_matches_expiry 5 initialState).2 rfl).2.1,
   (((c6_skip_matches_expiry 5 initialState).2 rfl).2.2.2.2.1 (by decide)).2.1⟩

/-- C7 (counterexample): the Work Minutes `onChange` handler stores
`parseInt` of the field verbatim — entering 0 leaves `workMinutes = 0`,
i.e. a work duration of 0 seconds, outside the claimed 1–3600 s range;
likewise 25 pomodoros is stored verbatim, and even the claimed 1–20
cycle bound does not hold.  Nothing is clamped. -/
theorem c7_clamping_counterexample :
    (workMinutesInput 0 initialState).workMinutes = 0 ∧
    ¬(1 ≤ (workMinutesInput 0 initialState).workMinutes * 60) ∧
    (totalPomodorosInput 25 initialState).totalPomodoros = 25 ∧
    ¬((totalPomodorosInput 25 initialState).totalPomodoros ≤ 20) := by
  decide

/-- C7 (amended): the configuration handlers store the parsed value
exactly as supplied, with no clamping (the 1–60 / 1–30 / 1–10 bounds
exist only as advisory HTML `min`/`max` attributes on the inputs); and
while a session is running the three inputs and the preset buttons are
disabled, so the configuration cannot be edited at all until the clock
is paused or reset. -/
theorem c7_config_unclamped (v w b : Int) (s : AppState) :
    (s.isRunning = false →
      (workMinutesInput v s).workMinutes = v ∧
      (breakMinutesInput v s).breakMinutes = v ∧
      (totalPomodorosInput v s).totalPomodoros = v ∧
      (presetButton w b s).workMinutes = w ∧
      (presetButton w b s).breakMinutes = b) ∧
    (s.isRunning = true →
      workMinutesInput v s = s ∧
      breakMinutesInput v s = s ∧
      totalPomodorosInput v s = s ∧
      presetButton w b s = s) := by
  constructor
  · intro h
    refine ⟨?_, ?_, ?_, ?_, ?_⟩ <;>
      simp [workMinutesInput, workMinutesOnChange, breakMinutesInput,
        breakMinutesOnChange, totalPomodorosInput, totalPomodorosOnChange,
        presetButton, setPreset, h] <;>
      split <;> rfl
  · intro h
    simp [workMinutesInput, breakMinutesInput, totalPomodorosInput,
      presetButton, h]

/-- C7 witness: the amended behavior at concrete inputs — an idle default
session stores 0 work minutes and 25 pomodoros verbatim and takes the
45/15 preset; a running session is entirely uneditable. -/
theorem c7_config_unclamped_witness :
    (workMinutesInput 0 initialState).workMinutes = 0 ∧
    (totalPomodorosInput 25 initialState).totalPomodoros = 25 ∧
    (presetButton 45 15 initialState).workMinutes = 45 ∧
    workMinutesInput 0 { initialState with isRunning := true } =
      { initialState with isRunning := true } ∧
    presetButton 45 15 { initialState with isRunning := true } =
      { initialState with isRunning := true } :=
  ⟨((c7_config_unclamped 0 45 15 initialState).1 rfl).1,
   ((c7_config_unclamped 25 45 15 initialState).1 rfl).2.2.1,
   ((c7_config_unclamped 0 45 15 initialState).1 rfl).2.2.2.1,
   ((c7_config_unclamped 0 45 15 { initialState with isRunning := true }).2 rfl).1,
   ((c7_config_unclamped 0 45 15 { initialState with isRunning := true }).2 rfl).2.2.2⟩

/-- C9: `extractVideoId` returns either an identifier of exactly 11
characters or a rejection (`null`); and a rejected URL submission leaves
the entire component state — timer state, loaded video id and history —
untouched. -/
theorem c9_extract_and_reject :
    (∀ (url id : List Char), extractVideoId url = some id → id.length = 11) ∧
    (∀ (title thumbnail : String) (now : Int) (s : UrlState),
      extractVideoId s.videoUrl = none → handleUrlSubmit title thumbnail now s = s) := by
  constructor
  · intro url id h
    unfold extractVideoId at h
    cases hf : findLastMarker url with
    | none => rw [hf] at h; cases h
    | some rest =>
        rw [hf] at h
        dsimp only at h
        by_cases hl : (captureGroup7 (afterMarker rest)).length = 11
        · rw [if_pos hl] at h
          cases h
          exact hl
        · rw [if_neg hl] at h
          cases h
  · intro title thumbnail now s h
    simp only [handleUrlSubmit, h]

/-- C9 witness: a well-formed short URL yields an 11-character id, and
submitting a malformed URL is a strict no-op on the component state. -/
theorem c9_extract_and_reject_witness :
    ("dQw4w9WgXcQ".data).length = 11 ∧
    handleUrlSubmit "title" "thumb" 0 c9RejectState = c9RejectState :=
  ⟨c9_extract_and_reject.1 ("https://youtu.be/dQw4w9WgXcQ".data)
      ("dQw4w9WgXcQ".data) (by decide),
   c9_extract_and_reject.2 "title" "thumb" 0 c9RejectState (by decide)⟩

/-! ## C5: the completion invariant -/

theorem timerEffect_fields (now : Int) (a : AppState) :
    (timerEffect now a).totalPomodoros = a.totalPomodoros ∧
    (timerEffect now a).currentPomodoro = a.currentPomodoro ∧
    (timerEffect now a).timerComplete = a.timerComplete ∧
    (timerEffect now a).isRunning = a.isRunning := by
  simp only [timerEffect]
  split
  · split <;> simp
  · simp

theorem timerEffect_intervalInv (now : Int) (a : AppState) :
    IntervalInv (timerEffect now a) := by
  simp only [IntervalInv, timerEffect]
  split
  · rename_i hc
    split
    · intro _
      simp_all
    · intro h
      simp_all
  · simp

theorem AInv_timerEffect (now : Int) (a : AppState) (h : AInv a) :
    AInv (timerEffect now a) := by
  obtain ⟨hf1, hf2, hf3, hf4⟩ := timerEffect_fields now a
  simp only [AInv, hf1, hf2, hf3]
  exact h

theorem AInv_toggleTimer (a : AppState) (h : AInv a) : AInv (toggleTimer a) := by
  obtain ⟨h1, h2, h3⟩ := h
  simp only [AInv, toggleTimer]
  split <;> simp_all <;> omega

theorem AInv_resetTimer (a : AppState) (h : AInv a) : AInv (resetTimer a) := by
  obtain ⟨h1, h2, h3⟩ := h
  simp only [AInv, resetTimer]
  simp_all
  omega

theorem AInv_skipSession (now : Int) (a : AppState) (h : AInv a) :
    AInv (skipSession now a) := by
  obtain ⟨h1, h2, h3⟩ := h
  simp only [AInv, skipSession]
  split
  · exact ⟨h1, h2, h3⟩
  · split
    · split <;> simp_all <;> omega
    · simp_all

theorem AInv_intervalTick (now : Int) (a : AppState) (h : AInv a) :
    AInv (intervalTick now a) := by
  obtain ⟨h1, h2, h3⟩ := h
  cases hcomp : a.timerComplete with
  | true =>
      have h4 := h3 hcomp
      simp only [AInv, intervalTick]
      split <;> (try split) <;> (try split) <;> simp_all
  | false =>
      simp only [AInv, intervalTick]
      split <;> (try split) <;> (try split) <;> simp_all <;> omega

theorem AInv_applyStateChange (armed : Bool) (kind : YTEventKind) (a : AppState)
    (h : AInv a) : AInv (applyStateChange armed kind a).2 := by
  obtain ⟨h1, h2, h3⟩ := h
  simp only [AInv, applyStateChange]
  cases (onStateChangeCore armed kind a.isRunning).2 <;> simp_all

theorem applyStateChange_complete (armed : Bool) (kind : YTEventKind)
    (a : AppState) :
    ((applyStateChange armed kind a).2).timerComplete = a.timerComplete := by
  simp only [applyStateChange]
  cases (onStateChangeCore armed kind a.isRunning).2 <;> simp

theorem applyStateChange_notPlayed (armed : Bool) (kind : YTEventKind)
    (a : AppState) (hk : kind ≠ .played)
    (hc : a.timerComplete = true → a.isRunning = false) :
    ((applyStateChange armed kind a).2).timerComplete = true →
      ((applyStateChange armed kind a).2).isRunning = false := by
  simp only [applyStateChange]
  cases hu : (onStateChangeCore armed kind a.isRunning).2 with
  | none => simpa using hc
  | some b =>
      have hb : b = false := by
        revert hu
        simp only [onStateChangeCore]
        cases kind with
        | played => exact absurd rfl hk
        | ended => split <;> simp
        | paused =>
            split
            · simp
            · split
              · simp_all
              · split
                · intro hu
                  cases hu
                  rfl
                · simp
      subst hb
      simp

theorem SysInv_applyOp (op : Op) (s : SysState) (h : SysInv s) :
    SysInv (applyOp op s) := by
  obtain ⟨ha, hi⟩ := h
  cases op with
  | toggle now =>
      exact ⟨AInv_timerEffect now _ (AInv_toggleTimer _ ha),
        timerEffect_intervalInv now _⟩
  | reset now =>
      exact ⟨AInv_timerEffect now _ (AInv_resetTimer _ ha),
        timerEffect_intervalInv now _⟩
  | skip now =>
      exact ⟨AInv_timerEffect now _ (AInv_skipSession now _ ha),
        timerEffect_intervalInv now _⟩
  | tickFire now =>
      simp only [applyOp]
      split
      · exact ⟨AInv_timerEffect now _ (AInv_intervalTick now _ ha),
          timerEffect_intervalInv now _⟩
      · exact ⟨ha, hi⟩
  | ytEvent kind now =>
      exact ⟨AInv_timerEffect now _ (AInv_applyStateChange _ kind _ ha),
        timerEffect_intervalInv now _⟩

theorem CompInv_applyOp (op : Op) (s : SysState) (hs : SysInv s)
    (hc : CompInv s.app) (hp : op.isPlayed = false) :
    CompInv (applyOp op s).app := by
  obtain ⟨⟨h1, h2, h3⟩, hi⟩ := hs
  cases op with
  | toggle now =>
      intro h
      have heq := (timerEffect_fields now (toggleTimer s.app)).2.2.1
      have : (toggleTimer s.app).timerComplete = false := by
        simp only [toggleTimer]
        split <;> simp_all
      simp only [applyOp, postRender] at h
      rw [heq, this] at h
      cases h
  | reset now =>
      intro h
      have heq := (timerEffect_fields now (resetTimer s.app)).2.2.1
      simp only [applyOp, postRender] at h
      rw [heq] at h
      simp [resetTimer] at h
  | skip now =>
      intro h
      have heq := (timerEffect_fields now (skipSession now s.app)).2.2.1
      have hrun := (timerEffect_fields now (skipSession now s.app)).2.2.2
      simp only [applyOp, postRender] at h ⊢
      rw [heq] at h
      rw [hrun]
      revert h
      simp only [skipSession]
      split
      · intro h
        exact hc h
      · split
        · split
          · intro _
            simp_all
          · intro h
            simp_all
        · intro h
          simp_all
  | tickFire now =>
      simp only [applyOp]
      split
      · rename_i hact
        intro h
        have heq := (timerEffect_fields now (intervalTick now s.app)).2.2.1
        have hrun := (timerEffect_fields now (intervalTick now s.app)).2.2.2
        simp only [postRender] at h ⊢
        rw [heq] at h
        rw [hrun]
        revert h
        obtain ⟨hr, hnc⟩ := hi hact
        simp only [intervalTick]
        split
        · split
          · split
            · intro _
              simp_all
            · intro h
              simp_all
          · intro h
            simp_all
        · intro h
          simp_all
      · exact hc
  | ytEvent kind now =>
      intro h
      have heq := (timerEffect_fields now (applyStateChange (s.guard.armed now) kind s.app).2).2.2.1
      have hrun := (timerEffect_fields now (applyStateChange (s.guard.armed now) kind s.app).2).2.2.2
      have hk : kind ≠ .played := by
        intro hk
        subst hk
        simp [Op.isPlayed] at hp
      simp only [applyOp, postRender] at h ⊢
      rw [heq] at h
      rw [hrun]
      exact applyStateChange_notPlayed (s.guard.armed now) kind s.app hk hc h

theorem SysInv_runOps (ops : List Op) (s : SysState) (h : SysInv s) :
    SysInv (runOps ops s) := by
  induction ops generalizing s with
  | nil => exact h
  | cons op ops ih =>
      exact ih (applyOp op s) (SysInv_applyOp op s h)

theorem CompInv_runOps (ops : List Op) (s : SysState) (hs : SysInv s)
    (hc : CompInv s.app) (hp : ∀ op ∈ ops, op.isPlayed = false) :
    CompInv (runOps ops s).app := by
  induction ops generalizing s with
  | nil => exact hc
  | cons op ops ih =>
      exact ih (applyOp op s) (SysInv_applyOp op s hs)
        (CompInv_applyOp op s hs hc (hp op (List.mem_cons_self op ops)))
        (fun o ho => hp o (List.mem_cons_of_mem op ho))

theorem SysInv_mkInit (w b t : Int) (h : 1 ≤ t) : SysInv (mkInit w b t) := by
  refine ⟨⟨h, by simpa [mkInit] using h, ?_⟩, ?_⟩ <;> simp [mkInit, AInv, IntervalInv]

/-- C5 (counterexample): from the idle 1-minute single-cycle configuration,
Start at t = 0, natural completion at t = 60000 (which stops the clock),
then an external Played event at t = 60500 — after the 100 ms echo guard
armed at completion has expired — reaches a state with
`timerComplete = true` and `isRunning = true`: the `onStateChange`
handler restarts the clock without checking for completion, so
`phase == Complete` does NOT imply `running == false` in every reachable
state. -/
theorem c5_invariant_counterexample :
    (runOps [.toggle 0, .tickFire 60000, .ytEvent .played 60500]
        (mkInit 1 1 1)).app.timerComplete = true ∧
    (runOps [.toggle 0, .tickFire 60000, .ytEvent .played 60500]
        (mkInit 1 1 1)).app.isRunning = true := by
  decide

/-- C5 (amended): in every state reachable through start/toggle, pause,
reset, skip, tick expiry and external playback events,
`phase == Complete` implies `cycleIndex == totalCycles − 1`; and
`phase == Complete` implies `running == false` in every state reachable
without an external Played event (a Played event delivered while
Complete, once the echo guard has expired, sets `running = true` while
leaving the phase Complete). -/
theorem c5_complete_invariant (w b t : Int) (ops : List Op) (h : 1 ≤ t) :
    ((runOps ops (mkInit w b t)).app.timerComplete = true →
      (runOps ops (mkInit w b t)).app.currentPomodoro + 1 =
        (runOps ops (mkInit w b t)).app.totalPomodoros) ∧
    ((∀ op ∈ ops, op.isPlayed = false) →
      (runOps ops (mkInit w b t)).app.timerComplete = true →
      (runOps ops (mkInit w b t)).app.isRunning = false) := by
  have hinv := SysInv_runOps ops (mkInit w b t) (SysInv_mkInit w b t h)
  refine ⟨hinv.1.2.2, fun hp => ?_⟩
  exact CompInv_runOps ops (mkInit w b t) (SysInv_mkInit w b t h)
    (by intro hcc; simp [mkInit] at hcc) hp

/-- C5 witness: the default 25/5/4 session driven to completion by Skip
ends complete with `cycleIndex = 3 = totalCycles − 1` and the clock
stopped. -/
theorem c5_complete_invariant_witness :
    (runOps c5Ops (mkInit 25 5 4)).app.currentPomodoro + 1 =
      (runOps c5Ops (mkInit 25 5 4)).app.totalPomodoros ∧
    (runOps c5Ops (mkInit 25 5 4)).app.isRunning = false :=
  ⟨(c5_complete_invariant 25 5 4 c5Ops (by decide)).1 (by decide),
   (c5_complete_invariant 25 5 4 c5Ops (by decide)).2 (by decide) (by decide)⟩

/-! ## C10: the history invariant -/

theorem addToHistory_not_mem (id url title thumbnail : String) (now : Int)
    (h : List VideoHistoryItem) (hno : ∀ item ∈ h, item.id ≠ id) :
    addToHistory id url title thumbnail now h =
      { id := id, url := url, title := title, thumbnail := thumbnail,
        addedAt := now } :: h.take 19 := by
  have hf : h.findIdx? (fun item => item.id = id) = none :=
    List.findIdx?_eq_none_iff.mpr (fun x hx => by simpa using hno x hx)
  simp only [addToHistory, hf]

theorem addToHistory_mem (id url title thumbnail : String) (now : Int)
    (h : List VideoHistoryItem) (hex : ∃ item ∈ h, item.id = id) :
    ∃ i, ∃ hi : i < h.length,
      h[i].id = id ∧
      addToHistory id url title thumbnail now h =
        { h[i] with addedAt := now } :: h.eraseIdx i := by
  have hex' : ∃ x ∈ h, (fun item => decide (item.id = id)) x = true := by
    obtain ⟨item, hm, hid⟩ := hex
    exact ⟨item, hm, by simpa using hid⟩
  have hlt := List.findIdx_lt_length_of_exists hex'
  refine ⟨List.findIdx (fun item => decide (item.id = id)) h, hlt, ?_, ?_⟩
  · have hp := @List.findIdx_getElem _ (fun item => decide (item.id = id)) h hlt
    simpa using hp
  · have hf : h.findIdx? (fun item => item.id = id) =
        some (List.findIdx (fun item => decide (item.id = id)) h) :=
      List.findIdx?_eq_some_iff_findIdx_eq.mpr ⟨hlt, rfl⟩
    have hg := List.getElem?_eq_getElem hlt
    simp only [addToHistory, hf, hg]

theorem HistInv_addToHistory (id url title thumbnail : String) (now : Int)
    (h : List VideoHistoryItem) (hinv : HistInv h) :
    HistInv (addToHistory id url title thumbnail now h) := by
  obtain ⟨hlen, hnd⟩ := hinv
  by_cases hex : ∃ item ∈ h, item.id = id
  · obtain ⟨i, hi, hid, heq⟩ := addToHistory_mem id url title thumbnail now h hex
    rw [heq]
    constructor
    · simp only [List.length_cons, List.length_eraseIdx, if_pos hi]
      omega
    · rw [List.map_cons]
      refine List.nodup_cons.mpr ⟨?_, ?_⟩
      · intro hmem
        simp only at hmem
        obtain ⟨x, hx, hxid⟩ := List.mem_map.mp hmem
        obtain ⟨j, hji, hjx⟩ := List.mem_eraseIdx_iff_getElem?.mp hx
        obtain ⟨hj, hjx'⟩ := List.getElem?_eq_some_iff.mp hjx
        have hj' : j < (h.map VideoHistoryItem.id).length := by simpa using hj
        have hi' : i < (h.map VideoHistoryItem.id).length := by simpa using hi
        have hmapej : (h.map VideoHistoryItem.id)[j] = (h.map VideoHistoryItem.id)[i] := by
          rw [List.getElem_map, List.getElem_map, hjx']
          exact hxid
        exact hji (hnd.getElem_inj_iff.mp hmapej)
      · exact List.Sublist.nodup
          (List.Sublist.map VideoHistoryItem.id (List.eraseIdx_sublist h i)) hnd
  · push_neg at hex
    rw [addToHistory_not_mem id url title thumbnail now h hex]
    constructor
    · simp only [List.length_cons, List.length_take]
      omega
    · rw [List.map_cons]
      refine List.nodup_cons.mpr ⟨?_, ?_⟩
      · intro hmem
        simp only at hmem
        obtain ⟨x, hx, hxid⟩ := List.mem_map.mp hmem
        exact hex x (List.mem_of_mem_take hx) hxid
      · exact List.Sublist.nodup
          (List.Sublist.map VideoHistoryItem.id (List.take_sublist 19 h)) hnd

theorem HistInv_applyHistOp (op : HistOp) (h : List VideoHistoryItem)
    (hinv : HistInv h) : HistInv (applyHistOp op h) := by
  cases op with
  | add id url title thumbnail now =>
      exact HistInv_addToHistory id url title thumbnail now h hinv
  | remove id =>
      obtain ⟨hlen, hnd⟩ := hinv
      refine ⟨le_trans (List.filter_sublist h).length_le hlen, ?_⟩
      exact List.Sublist.nodup
        (List.Sublist.map VideoHistoryItem.id (List.filter_sublist h)) hnd
  | clear => exact ⟨by simp [applyHistOp, clearHistory], by simp [applyHistOp, clearHistory]⟩
  | load item title thumbnail now =>
      exact HistInv_addToHistory item.id item.url title thumbnail now h hinv

theorem HistInv_foldl (ops : List HistOp) (h : List VideoHistoryItem)
    (hinv : HistInv h) :
    HistInv (ops.foldl (fun h op => applyHistOp op h) h) := by
  induction ops generalizing h with
  | nil => exact hinv
  | cons op ops ih => exact ih (applyHistOp op h) (HistInv_applyHistOp op h hinv)

/-- C10: starting from an empty history, after any sequence of
addToHistory / removeFromHistory / clearHistory / loadFromHistory
operations the history holds at most 20 items with at most one entry per
video id; adding a new id prepends a fresh entry and retains at most the
first 19 previous entries; re-adding an existing id moves that entry to
the front (refreshing its timestamp) without changing the list's
length. -/
theorem c10_history_invariant :
    (∀ ops : List HistOp,
      (runHistOps ops).length ≤ 20 ∧
      ((runHistOps ops).map VideoHistoryItem.id).Nodup) ∧
    (∀ (id url title thumbnail : String) (now : Int)
      (h : List VideoHistoryItem),
      (∀ item ∈ h, item.id ≠ id) →
      addToHistory id url title thumbnail now h =
        { id := id, url := url, title := title, thumbnail := thumbnail,
          addedAt := now } :: h.take 19) ∧
    (∀ (id url title thumbnail : String) (now : Int)
      (h : List VideoHistoryItem),
      (∃ item ∈ h, item.id = id) →
      (addToHistory id url title thumbnail now h).length = h.length ∧
      ((addToHistory id url title thumbnail now h).head?.map
        VideoHistoryItem.id) = some id) := by
  refine ⟨fun ops => HistInv_foldl ops [] ⟨by simp, by simp⟩,
    addToHistory_not_mem, ?_⟩
  intro id url title thumbnail now h hex
  obtain ⟨i, hi, hid, heq⟩ := addToHistory_mem id url title thumbnail now h hex
  rw [heq]
  constructor
  · simp only [List.length_cons, List.length_eraseIdx, if_pos hi]
    omega
  · simp [hid]

/-- C10 witness: on a singleton history for video "a", adding the new id
"b" prepends it; re-adding "a" keeps the length at 1 and leaves "a" in
front. -/
theorem c10_history_invariant_witness :
    addToHistory "b" "ub" "tb" "hb" 5
        [{ id := "a", url := "ua", title := "ta", thumbnail := "ha", addedAt := 0 }] =
      [{ id := "b", url := "ub", title := "tb", thumbnail := "hb", addedAt := 5 },
       { id := "a", url := "ua", title := "ta", thumbnail := "ha", addedAt := 0 }] ∧
    (addToHistory "a" "ua2" "ta2" "ha2" 9
        [{ id := "a", url := "ua", title := "ta", thumbnail := "ha", addedAt := 0 }]).length = 1 ∧
    ((addToHistory "a" "ua2" "ta2" "ha2" 9
        [{ id := "a", url := "ua", title := "ta", thumbnail := "ha", addedAt := 0 }]).head?.map
      VideoHistoryItem.id) = some "a" := by
  refine ⟨?_, ?_, ?_⟩
  · have := c10_history_invariant.2.1 "b" "ub" "tb" "hb" 5
      [{ id := "a", url := "ua", title := "ta", thumbnail := "ha", addedAt := 0 }]
      (by decide)
    simpa using this
  · exact (c10_history_invariant.2.2 "a" "ua2" "ta2" "ha2" 9
      [{ id := "a", url := "ua", title := "ta", thumbnail := "ha", addedAt := 0 }]
      ⟨_, List.mem_singleton.mpr rfl, rfl⟩).1
  · exact (c10_history_invariant.2.2 "a" "ua2" "ta2" "ha2" 9
      [{ id := "a", url := "ua", title := "ta", thumbnail := "ha", addedAt := 0 }]
      ⟨_, List.mem_singleton.mpr rfl, rfl⟩).2

end Pomodoro
